import Mathlib

/-!
Verification of `deepxde/data/pde_operator.py` (class `PDEOperator`).

The embedding models NumPy 2-D arrays as a list of rows together with an
explicit column count (`ncols`), so that empty arrays such as
`np.empty((0, k))` keep their column width.  Scalars are rationals.
Function-space "feature" handles are opaque; we model them as rationals.
The function space's `random` draw is modelled as a deterministic function
of the requested batch size (fixed sampler randomness).
-/

namespace PDEOp

/-- A NumPy 2-D array: a list of rows plus the column count.  A well-formed
matrix has every row of length `ncols`; an empty `np.empty((0, k))` array is
`⟨[], k⟩`. -/
structure Mat where
  rows : List (List ℚ)
  ncols : Nat
deriving Repr, DecidableEq, Inhabited

/-- `len(a)` for a NumPy 2-D array: the number of rows. -/
def Mat.nrows (m : Mat) : Nat := m.rows.length

/-- `np.repeat(m, k, axis=0)`: each row repeated `k` consecutive times. -/
def Mat.repeatRows (m : Mat) (k : Nat) : Mat :=
  ⟨(m.rows.map (fun r => List.replicate k r)).flatten, m.ncols⟩

/-- `np.tile(m, (n, 1))`: the whole block of rows repeated `n` times. -/
def Mat.tile (m : Mat) (n : Nat) : Mat :=
  ⟨(List.replicate n m.rows).flatten, m.ncols⟩

/-- Column selection `m[:, idx]` by a list of column indices. -/
def Mat.selectCols (m : Mat) (idx : List Nat) : Mat :=
  ⟨m.rows.map (fun r => idx.map (fun j => r.getD j 0)), idx.length⟩

/-- `m.reshape(-1, 1)`: flatten in row-major order, one scalar per row. -/
def Mat.reshapeCol (m : Mat) : Mat :=
  ⟨m.rows.flatten.map (fun a => [a]), 1⟩

/-- `np.vstack((a, b))`. -/
def Mat.vstack (a b : Mat) : Mat := ⟨a.rows ++ b.rows, a.ncols⟩

/-- `np.vstack(ms)` for a list of blocks. -/
def Mat.vstackList (ms : List Mat) : Mat :=
  ⟨(ms.map Mat.rows).flatten, (ms.headD default).ncols⟩

/-- Row slice `m[beg:en]` (Python slice semantics, clamped at the ends). -/
def Mat.slice (m : Mat) (beg en : Nat) : Mat :=
  ⟨(m.rows.drop beg).take (en - beg), m.ncols⟩

/-- Row slice `m[k:]`. -/
def Mat.dropRows (m : Mat) (k : Nat) : Mat := ⟨m.rows.drop k, m.ncols⟩

/-- `np.cumsum([0] + l)` starting from accumulator `a`. -/
def cumsumFrom (a : Nat) : List Nat → List Nat
  | [] => [a]
  | n :: t => a :: cumsumFrom (a + n) t

/-- `np.cumsum([0] + l)`: the list `[0, l₀, l₀+l₁, …]` of length `l.length + 1`. -/
def cumsum (l : List Nat) : List Nat := cumsumFrom 0 l

/-- A data triple `(v, x, vx)`. -/
abbrev Triple := Mat × Mat × Mat

/-- The Function Sampler (`dde.data.FunctionSpace`):
`random n` draws `n` opaque function handles (deterministic here: fixed
sampler randomness), `eval_batch feats pts` evaluates every handle at every
point, a `len(feats) × len(pts)` matrix. -/
structure FunctionSpace where
  random : Nat → List ℚ
  eval_batch : List ℚ → Mat → Mat

/-- The Function Sampler's interface contract (spec §6): `random n` returns
`n` handles and `eval_batch` returns a `len(feats) × len(pts)` matrix. -/
def FunctionSpace.WellFormed (fs : FunctionSpace) : Prop :=
  (∀ n, (fs.random n).length = n) ∧
  (∀ feats pts, (fs.eval_batch feats pts).rows.length = feats.length) ∧
  (∀ feats pts, ∀ r ∈ (fs.eval_batch feats pts).rows, r.length = pts.rows.length)

/-- A boundary/initial condition: only its `error` function is consumed here.
`error x_full model_x outputs beg en aux` is the condition's error array. -/
structure BC where
  error : Mat → Mat → Mat → Nat → Nat → Mat → List ℚ

instance : Inhabited BC := ⟨⟨fun _ _ _ _ _ _ => []⟩⟩

/-- The Problem Descriptor (`dde.data.PDE`).  `pde` is the optional residual
operator; in the source a residual returning a single array is wrapped into a
one-element list, so we model it as returning the normalized list of
components directly.  `num_bcs` are the raw per-condition point counts,
`train_x_bc` the BC/IC training points, `train_x_all` the interior training
collocation points, `test_x` the test point set (BC region then interior). -/
structure PDE where
  geom_dim : Nat
  pde : Option (Mat → Mat → Mat → List (List ℚ))
  bcs : List BC
  num_bcs : List Nat
  train_x_bc : Mat
  train_x_all : Mat
  test_x : Mat

/-- The model's input tensors consumed by residual/error functions:
`inputs1` is `model.net.inputs[1]` (trunk coordinates), `inputs2` is
`model.net.inputs[2]` (paired function values). -/
structure Model where
  inputs1 : Mat
  inputs2 : Mat

/-- The state of a `PDEOperator` instance: constructor arguments plus the
five cached dataset slots (`None` ↦ `none`). -/
structure PDEOperator where
  pde : PDE
  func_space : FunctionSpace
  eval_pts : Mat
  num_func : Nat
  func_vars : List Nat
  num_test : Option Nat
  num_bcs : List Nat
  train_x_bc : Option Triple
  train_x : Option Triple
  train_y : Option Triple
  test_x : Option Triple
  test_y : Option Triple

/-- `PDEOperator.gen_inputs(func_feats, func_vals, points)` (lines 132-145):
`v = np.repeat(func_vals, len(points), axis=0)`,
`x = np.tile(points, (len(func_feats), 1))`,
`vx = eval_batch(func_feats, points[:, func_vars]).reshape(-1, 1)`. -/
def PDEOperator.gen_inputs (self : PDEOperator) (func_feats : List ℚ)
    (func_vals points : Mat) : Triple :=
  (func_vals.repeatRows points.nrows,
   points.tile func_feats.length,
   (self.func_space.eval_batch func_feats
      (points.selectCols self.func_vars)).reshapeCol)

/-- `PDEOperator.bc_inputs(func_feats, func_vals)` (lines 147-166): with no
conditions, store and return correctly-shaped empty arrays; otherwise slice
`pde.train_x_bc` by the raw per-condition counts, run `gen_inputs` per
condition, and vertically stack.  Returns the updated state and the triple. -/
def PDEOperator.bc_inputs (self : PDEOperator) (func_feats : List ℚ)
    (func_vals : Mat) : PDEOperator × Triple :=
  if self.pde.bcs.isEmpty then
    let t : Triple := (⟨[], self.eval_pts.nrows⟩, ⟨[], self.pde.geom_dim⟩, ⟨[], 1⟩)
    ({ self with train_x_bc := some t }, t)
  else
    let bcs_start := cumsum self.pde.num_bcs
    let parts := (List.range self.pde.num_bcs.length).map (fun i =>
      self.gen_inputs func_feats func_vals
        (self.pde.train_x_bc.slice (bcs_start.getD i 0) (bcs_start.getD (i + 1) 0)))
    let t : Triple := (Mat.vstackList (parts.map (fun p => p.1)),
                       Mat.vstackList (parts.map (fun p => p.2.1)),
                       Mat.vstackList (parts.map (fun p => p.2.2)))
    ({ self with train_x_bc := some t }, t)

/-- Modelled from the spec: the `run_if_all_none` caching decorator (from
`deepxde.utils`, not part of the sources here) runs the body only when every
guarded slot is `None`; otherwise it returns the cached slot values
unchanged ("skip-if-cached policy").  Here the guard is inlined into
`train_next_batch` / `test` as the test that both guarded slots are `none`. -/
def runIfAllNoneGuard (a b : Option Triple) : Prop := a = none ∧ b = none

instance (a b : Option Triple) : Decidable (runIfAllNoneGuard a b) := by
  unfold runIfAllNoneGuard; infer_instance

/-- `PDEOperator.train_next_batch(batch_size)` (lines 96-110), guarded by
`run_if_all_none("train_x", "train_y")`: draw `num_func` functions, build
`train_x_bc` via `bc_inputs`, append interior rows over `pde.train_x_all`
when a residual is defined, store as `train_x`; `train_y = None`.  The
`batch_size` argument is never read. -/
def PDEOperator.train_next_batch (self : PDEOperator) (batch_size : Option Nat) :
    PDEOperator × (Option Triple × Option Triple) :=
  if runIfAllNoneGuard self.train_x self.train_y then
    let func_feats := self.func_space.random self.num_func
    let func_vals := self.func_space.eval_batch func_feats self.eval_pts
    let s1 := (self.bc_inputs func_feats func_vals).1
    let t0 := (self.bc_inputs func_feats func_vals).2
    let final : Triple :=
      match self.pde.pde with
      | none => t0
      | some _ =>
        let p := self.gen_inputs func_feats func_vals self.pde.train_x_all
        (t0.1.vstack p.1, t0.2.1.vstack p.2.1, t0.2.2.vstack p.2.2)
    ({ s1 with train_x := some final, train_y := none }, (some final, none))
  else
    (self, (self.train_x, self.train_y))

/-- `PDEOperator.test()` (lines 112-130), guarded by
`run_if_all_none("test_x", "test_y")`: with `num_test = None`, alias
`train_x`; otherwise draw a fresh `num_test` batch, reuse the stored
`train_x_bc`, and append interior rows over `pde.test_x[sum(pde.num_bcs):]`
when a residual is defined; `test_y = None`. -/
def PDEOperator.test (self : PDEOperator) :
    PDEOperator × (Option Triple × Option Triple) :=
  if runIfAllNoneGuard self.test_x self.test_y then
    match self.num_test with
    | none =>
      ({ self with test_x := self.train_x, test_y := none }, (self.train_x, none))
    | some nt =>
      let func_feats := self.func_space.random nt
      let func_vals := self.func_space.eval_batch func_feats self.eval_pts
      let t0 := self.train_x_bc.getD default
      let final : Triple :=
        match self.pde.pde with
        | none => t0
        | some _ =>
          let p := self.gen_inputs func_feats func_vals
            (self.pde.test_x.dropRows self.pde.num_bcs.sum)
          (t0.1.vstack p.1, t0.2.1.vstack p.2.1, t0.2.2.vstack p.2.2)
      ({ self with test_x := some final, test_y := none }, (some final, none))
  else
    (self, (self.test_x, self.test_y))

/-- `PDEOperator.losses(targets, outputs, loss, model)` (lines 72-94):
recompute the residual components from `model.net.inputs[1]`, `outputs`,
`model.net.inputs[2]`; drop the scaled BC/IC rows from each component and
reduce against a zero target; then, per condition in declared order, reduce
the condition's error over `[bcs_start[i], bcs_start[i+1])` computed from
`self.train_x[1]` and `self.train_x[2]`. -/
def PDEOperator.losses (self : PDEOperator) (targets : Option Mat) (outputs : Mat)
    (loss : List ℚ → List ℚ → ℚ) (model : Model) : List ℚ :=
  let f : List (List ℚ) :=
    match self.pde.pde with
    | none => []
    | some res => res model.inputs1 outputs model.inputs2
  let bcs_start := cumsum self.num_bcs
  let error_f := f.map (fun fi => fi.drop (bcs_start.getLastD 0))
  let pdeLosses := error_f.map (fun er => loss (List.replicate er.length 0) er)
  let bcLosses := (List.range self.pde.bcs.length).map (fun i =>
    let tx := self.train_x.getD default
    let er := (self.pde.bcs.getD i default).error tx.2.1 model.inputs1 outputs
      (bcs_start.getD i 0) (bcs_start.getD (i + 1) 0) tx.2.2
    loss (List.replicate er.length 0) er)
  pdeLosses ++ bcLosses

/-- `PDEOperator.__init__`, lines 51-67 only: field initialization.  All five
cached slots are set to `None`; `num_bcs` is the raw counts scaled by
`num_function`; `func_vars` defaults to `list(range(pde.geom.dim))`. -/
def PDEOperator.initFields (pde : PDE) (function_space : FunctionSpace)
    (evaluation_points : Mat) (num_function : Nat)
    (function_variables : Option (List Nat)) (num_test : Option Nat) :
    PDEOperator :=
  { pde := pde
    func_space := function_space
    eval_pts := evaluation_points
    num_func := num_function
    func_vars := function_variables.getD (List.range pde.geom_dim)
    num_test := num_test
    num_bcs := pde.num_bcs.map (fun n => n * num_function)
    train_x_bc := none
    train_x := none
    train_y := none
    test_x := none
    test_y := none }

/-- `PDEOperator.__init__` in full (lines 42-70): field initialization
followed by the constructor's own calls `self.train_next_batch()` and
`self.test()` (lines 69-70). -/
def PDEOperator.init (pde : PDE) (function_space : FunctionSpace)
    (evaluation_points : Mat) (num_function : Nat)
    (function_variables : Option (List Nat)) (num_test : Option Nat) :
    PDEOperator :=
  (((PDEOperator.initFields pde function_space evaluation_points num_function
      function_variables num_test).train_next_batch none).1.test).1

/-! ### Concrete instances used by witnesses -/

/-- A concrete Function Sampler: handle `f` evaluated at point `r` gives
`f + Σ r`, so `eval_batch` has the contractual `len(feats) × len(pts)` shape. -/
def exFS : FunctionSpace where
  random := fun n => List.map (fun i => ((i : ℕ) : ℚ)) (List.range n)
  eval_batch := fun feats pts =>
    ⟨feats.map (fun f => pts.rows.map (fun r => f + r.sum)), pts.nrows⟩

/-- A concrete condition whose error sums each output row on its range. -/
def exBC : BC :=
  ⟨fun _ _ outputs beg en _ => ((outputs.rows.drop beg).take (en - beg)).map List.sum⟩

/-- A concrete one-component residual. -/
def exRes : Mat → Mat → Mat → List (List ℚ) :=
  fun _ outputs _ => [outputs.rows.map List.sum]

/-- A concrete 1-D problem: two conditions with raw point counts `[2, 1]`,
three BC training points, two interior training points, a residual, and a
test point set with three BC rows then two interior rows. -/
def exPDE : PDE where
  geom_dim := 1
  pde := some exRes
  bcs := [exBC, exBC]
  num_bcs := [2, 1]
  train_x_bc := ⟨[[0], [1], [2]], 1⟩
  train_x_all := ⟨[[5], [6]], 1⟩
  test_x := ⟨[[0], [1], [2], [7], [8]], 1⟩

/-- Two fixed evaluation points (`P = 2`). -/
def exPts : Mat := ⟨[[0], [10]], 1⟩

/-- The example operator state right after field initialization. -/
def exOp0 : PDEOperator := PDEOperator.initFields exPDE exFS exPts 2 none none

/-- The example operator after full construction (`__init__`). -/
def exOp : PDEOperator := PDEOperator.init exPDE exFS exPts 2 none none

/-- The function batch the example sampler draws for `num_func = 2`. -/
def exFeats : List ℚ := exFS.random 2

/-- The example functions discretized at the evaluation points. -/
def exVals : Mat := exFS.eval_batch exFeats exPts

/-- The example problem with its condition list emptied. -/
def exPDEnoBC : PDE := { exPDE with bcs := [], num_bcs := [] }

/-- Field-initialized operator over the condition-free problem. -/
def exOpNoBC0 : PDEOperator := PDEOperator.initFields exPDEnoBC exFS exPts 2 none none

/-- The example problem with `num_test` configured, after field
initialization. -/
def exOpT0 : PDEOperator := PDEOperator.initFields exPDE exFS exPts 2 none (some 3)

/-- The example operator with `num_test = 3`, fully constructed. -/
def exOpT : PDEOperator := PDEOperator.init exPDE exFS exPts 2 none (some 3)

/-- Example model outputs: ten rows (six scaled BC rows plus four interior). -/
def exOut : Mat := ⟨List.replicate 10 [1], 1⟩

/-- Example model input tensors. -/
def exModel : Model := ⟨exOut, exOut⟩

/-- Example loss reduction. -/
def exLossFn : List ℚ → List ℚ → ℚ := fun _ b => b.sum

/-! ### Helper lemmas -/

theorem getD_replicate_of_lt {α : Type} (d a : α) (k i : Nat) (h : i < k) :
    (List.replicate k a).getD i d = a := by
  rw [List.getD_eq_getElem?_getD, List.getElem?_replicate, if_pos h]
  rfl

theorem getD_map_of_lt {α β : Type} (f : α → β) (l : List α) (i : Nat)
    (hi : i < l.length) (d : β) (d' : α) :
    (l.map f).getD i d = f (l.getD i d') := by
  rw [List.getD_eq_getElem?_getD, List.getElem?_map, List.getElem?_eq_getElem hi,
      List.getD_eq_getElem l d' hi]
  rfl

theorem flatten_getD_uniform {α : Type} (d : α) (M : Nat) (L : List (List α))
    (h : ∀ l ∈ L, l.length = M) (n m : Nat) (hn : n < L.length) (hm : m < M) :
    L.flatten.getD (n * M + m) d = (L.getD n []).getD m d := by
  induction L generalizing n with
  | nil => simp at hn
  | cons hd tl ih =>
    have hhd : hd.length = M := h hd (List.mem_cons_self hd tl)
    cases n with
    | zero =>
      rw [List.flatten_cons, Nat.zero_mul, Nat.zero_add,
          List.getD_append _ _ _ m (by omega), List.getD_cons_zero]
    | succ n =>
      rw [List.flatten_cons,
          List.getD_append_right _ _ _ _ (by rw [hhd, Nat.succ_mul]; omega)]
      have harith : (n + 1) * M + m - hd.length = n * M + m := by
        rw [hhd, Nat.succ_mul]; omega
      rw [harith, List.getD_cons_succ]
      exact ih (fun l hl => h l (List.mem_cons_of_mem hd hl)) n (by simpa using hn)

theorem length_flatten_uniform {α : Type} (M : Nat) (L : List (List α))
    (h : ∀ l ∈ L, l.length = M) : L.flatten.length = L.length * M := by
  induction L with
  | nil => simp
  | cons hd tl ih =>
    rw [List.flatten_cons, List.length_append,
        ih (fun l hl => h l (List.mem_cons_of_mem hd hl)),
        h hd (List.mem_cons_self hd tl), List.length_cons, Nat.succ_mul]
    omega

theorem cumsumFrom_length (a : Nat) (l : List Nat) :
    (cumsumFrom a l).length = l.length + 1 := by
  induction l generalizing a with
  | nil => rfl
  | cons hd tl ih => simp [cumsumFrom, ih]

theorem cumsumFrom_getD (a : Nat) (l : List Nat) (i : Nat) (hi : i ≤ l.length) :
    (cumsumFrom a l).getD i 0 = a + (l.take i).sum := by
  induction l generalizing a i with
  | nil =>
    have h0 : i = 0 := by simpa using hi
    subst h0; simp [cumsumFrom]
  | cons hd tl ih =>
    cases i with
    | zero => simp [cumsumFrom]
    | succ i =>
      rw [show cumsumFrom a (hd :: tl) = a :: cumsumFrom (a + hd) tl from rfl,
          List.getD_cons_succ, ih (a + hd) i (by simpa using hi), List.take_succ_cons,
          List.sum_cons]
      omega

theorem cumsum_getD (l : List Nat) (i : Nat) (hi : i ≤ l.length) :
    (cumsum l).getD i 0 = (l.take i).sum := by
  rw [cumsum, cumsumFrom_getD 0 l i hi, Nat.zero_add]

theorem cumsumFrom_getLastD (a d : Nat) (l : List Nat) :
    (cumsumFrom a l).getLastD d = a + l.sum := by
  induction l generalizing a d with
  | nil => simp [cumsumFrom]
  | cons hd tl ih =>
    rw [show cumsumFrom a (hd :: tl) = a :: cumsumFrom (a + hd) tl from rfl,
        List.getLastD_cons, ih, List.sum_cons]
    omega

theorem cumsum_getLastD (l : List Nat) : (cumsum l).getLastD 0 = l.sum := by
  rw [cumsum, cumsumFrom_getLastD, Nat.zero_add]

theorem flatten_drop_take {α : Type} (L : List (List α)) (i : Nat) (hi : i < L.length) :
    (L.flatten.drop (((L.map List.length).take i).sum)).take (L.getD i []).length
      = L.getD i [] := by
  induction L generalizing i with
  | nil => simp at hi
  | cons hd tl ih =>
    cases i with
    | zero =>
      rw [List.getD_cons_zero]
      simp only [List.take_zero, List.sum_nil, List.drop_zero, List.flatten_cons]
      exact List.take_left hd tl.flatten
    | succ i =>
      rw [List.getD_cons_succ, List.map_cons, List.take_succ_cons, List.sum_cons,
          List.flatten_cons, List.drop_append]
      exact ih i (by simpa using hi)

theorem Mat.nrows_repeatRows (m : Mat) (k : Nat) :
    (m.repeatRows k).nrows = m.nrows * k := by
  have hml : ∀ l ∈ m.rows.map (fun r => List.replicate k r), l.length = k := by
    intro l hl
    rcases List.mem_map.mp hl with ⟨r, _, rfl⟩
    exact List.length_replicate k r
  show ((m.rows.map fun r => List.replicate k r).flatten).length = m.rows.length * k
  rw [length_flatten_uniform k _ hml, List.length_map]

theorem Mat.nrows_tile (m : Mat) (n : Nat) : (m.tile n).nrows = n * m.nrows := by
  have h : ∀ l ∈ List.replicate n m.rows, l.length = m.rows.length := by
    intro l hl; rw [List.eq_of_mem_replicate hl]
  show ((List.replicate n m.rows).flatten).length = n * m.rows.length
  rw [length_flatten_uniform m.rows.length _ h, List.length_replicate]

theorem Mat.nrows_selectCols (m : Mat) (idx : List Nat) :
    (m.selectCols idx).nrows = m.nrows := by
  show (m.rows.map _).length = m.rows.length
  rw [List.length_map]

theorem Mat.nrows_reshapeCol (m : Mat) (M : Nat) (h : ∀ r ∈ m.rows, r.length = M) :
    m.reshapeCol.nrows = m.nrows * M := by
  show ((m.rows.flatten.map fun a => [a])).length = m.rows.length * M
  rw [List.length_map, length_flatten_uniform M _ h]

theorem bc_inputs_frame (s : PDEOperator) (f : List ℚ) (v : Mat) :
    (s.bc_inputs f v).1 = { s with train_x_bc := some (s.bc_inputs f v).2 } := by
  unfold PDEOperator.bc_inputs
  by_cases hc : s.pde.bcs.isEmpty <;> simp [hc]

theorem train_next_batch_run (s : PDEOperator) (b : Option Nat)
    (h : runIfAllNoneGuard s.train_x s.train_y) :
    s.train_next_batch b =
      (let func_feats := s.func_space.random s.num_func
       let func_vals := s.func_space.eval_batch func_feats s.eval_pts
       let t0 := (s.bc_inputs func_feats func_vals).2
       let final : Triple :=
         match s.pde.pde with
         | none => t0
         | some _ =>
           let p := s.gen_inputs func_feats func_vals s.pde.train_x_all
           (t0.1.vstack p.1, t0.2.1.vstack p.2.1, t0.2.2.vstack p.2.2)
       ({ s with train_x_bc := some t0, train_x := some final, train_y := none },
        (some final, none))) := by
  unfold PDEOperator.train_next_batch
  rw [if_pos h]
  simp only [bc_inputs_frame]

theorem test_run_none (s : PDEOperator) (h : runIfAllNoneGuard s.test_x s.test_y)
    (hnt : s.num_test = none) :
    s.test = ({ s with test_x := s.train_x, test_y := none }, (s.train_x, none)) := by
  unfold PDEOperator.test
  rw [if_pos h, hnt]

theorem test_run_some (s : PDEOperator) (nt : Nat)
    (h : runIfAllNoneGuard s.test_x s.test_y) (hnt : s.num_test = some nt) :
    s.test =
      (let func_feats := s.func_space.random nt
       let func_vals := s.func_space.eval_batch func_feats s.eval_pts
       let t0 := s.train_x_bc.getD default
       let final : Triple :=
         match s.pde.pde with
         | none => t0
         | some _ =>
           let p := s.gen_inputs func_feats func_vals
             (s.pde.test_x.dropRows s.pde.num_bcs.sum)
           (t0.1.vstack p.1, t0.2.1.vstack p.2.1, t0.2.2.vstack p.2.2)
       ({ s with test_x := some final, test_y := none }, (some final, none))) := by
  unfold PDEOperator.test
  rw [if_pos h, hnt]

theorem train_next_batch_populates (s : PDEOperator) (b : Option Nat)
    (h : runIfAllNoneGuard s.train_x s.train_y) :
    ((s.train_next_batch b).1.train_x).isSome = true := by
  unfold PDEOperator.train_next_batch
  rw [if_pos h]
  rfl

theorem train_next_batch_frame (s : PDEOperator) (b : Option Nat) :
    (s.train_next_batch b).1.test_x = s.test_x ∧
    (s.train_next_batch b).1.test_y = s.test_y ∧
    (s.train_next_batch b).1.num_test = s.num_test := by
  unfold PDEOperator.train_next_batch
  by_cases h : runIfAllNoneGuard s.train_x s.train_y
  · rw [if_pos h]
    simp [bc_inputs_frame]
  · rw [if_neg h]
    exact ⟨rfl, rfl, rfl⟩

theorem test_populates (s : PDEOperator) (h : runIfAllNoneGuard s.test_x s.test_y)
    (htr : s.train_x.isSome = true) :
    ((s.test).1.test_x).isSome = true ∧ (s.test).1.train_x = s.train_x := by
  unfold PDEOperator.test
  rw [if_pos h]
  cases hnt : s.num_test with
  | none => exact ⟨htr, rfl⟩
  | some nt => exact ⟨rfl, rfl⟩

theorem getD_range_map {β : Type} (g : Nat → β) (C i : Nat) (hi : i < C) (d : β) :
    ((List.range C).map g).getD i d = g i := by
  rw [getD_map_of_lt g _ i (by rw [List.length_range]; omega) d 0]
  congr 1
  rw [List.getD_eq_getElem _ _ (by rw [List.length_range]; omega)]
  exact List.getElem_range i _

theorem losses_eq (s : PDEOperator) (targets : Option Mat) (outputs : Mat)
    (loss : List ℚ → List ℚ → ℚ) (model : Model) :
    s.losses targets outputs loss model
      = ((match s.pde.pde with
          | none => ([] : List (List ℚ))
          | some res => res model.inputs1 outputs model.inputs2).map
           (fun (fi : List ℚ) => loss (List.replicate (fi.drop s.num_bcs.sum).length 0)
              (fi.drop s.num_bcs.sum)))
        ++ (List.range s.pde.bcs.length).map (fun i =>
             loss (List.replicate ((s.pde.bcs.getD i default).error
                 (s.train_x.getD default).2.1 model.inputs1 outputs
                 ((cumsum s.num_bcs).getD i 0) ((cumsum s.num_bcs).getD (i + 1) 0)
                 (s.train_x.getD default).2.2).length 0)
               ((s.pde.bcs.getD i default).error (s.train_x.getD default).2.1 model.inputs1
                 outputs ((cumsum s.num_bcs).getD i 0) ((cumsum s.num_bcs).getD (i + 1) 0)
                 (s.train_x.getD default).2.2)) := by
  unfold PDEOperator.losses
  simp only [List.map_map, cumsum_getLastD, Function.comp]
  rfl

theorem losses_getD_bc (s : PDEOperator) (targets : Option Mat) (outputs : Mat)
    (loss : List ℚ → List ℚ → ℚ) (model : Model) (i : Nat) (hi : i < s.pde.bcs.length) :
    (s.losses targets outputs loss model).getD
        ((match s.pde.pde with
          | none => 0
          | some res => (res model.inputs1 outputs model.inputs2).length) + i) 0
      = loss
          (List.replicate ((s.pde.bcs.getD i default).error (s.train_x.getD default).2.1
            model.inputs1 outputs ((cumsum s.num_bcs).getD i 0)
            ((cumsum s.num_bcs).getD (i + 1) 0) (s.train_x.getD default).2.2).length 0)
          ((s.pde.bcs.getD i default).error (s.train_x.getD default).2.1 model.inputs1
            outputs ((cumsum s.num_bcs).getD i 0) ((cumsum s.num_bcs).getD (i + 1) 0)
            (s.train_x.getD default).2.2) := by
  rw [losses_eq]
  cases hp : s.pde.pde with
  | none =>
    simp only [List.map_nil, List.nil_append, Nat.zero_add]
    rw [getD_range_map _ _ i hi]
  | some res =>
    simp only []
    rw [List.getD_append_right _ _ _ _
      (by rw [List.length_map]; omega)]
    rw [List.length_map, Nat.add_sub_cancel_left]
    rw [getD_range_map _ _ i hi]

theorem slice_block_nrows (m : Mat) (l : List Nat) (htr : m.nrows = l.sum)
    (j : Nat) (hj : j < l.length) :
    (m.slice ((cumsum l).getD j 0) ((cumsum l).getD (j + 1) 0)).nrows
      = l.getD j 0 := by
  show ((m.rows.drop ((cumsum l).getD j 0)).take
      ((cumsum l).getD (j + 1) 0 - (cumsum l).getD j 0)).length = l.getD j 0
  rw [cumsum_getD l j (by omega), cumsum_getD l (j + 1) hj]
  rw [List.length_take, List.length_drop]
  have h1 : (l.take (j + 1)).sum = (l.take j).sum + l.getD j 0 := by
    rw [List.sum_take_succ l j hj, List.getD_eq_getElem l 0 hj]
  have h2 := List.sum_take_add_sum_drop l (j + 1)
  have htot : m.rows.length = l.sum := htr
  omega

theorem bc_part_counts (s : PDEOperator) (func_feats : List ℚ) (func_vals : Mat)
    (hfe : func_feats.length = s.num_func) (hfv : func_vals.nrows = s.num_func)
    (hwf : s.func_space.WellFormed)
    (htr : s.pde.train_x_bc.nrows = s.pde.num_bcs.sum)
    (j : Nat) (hj : j < s.pde.num_bcs.length) :
    ((s.gen_inputs func_feats func_vals (s.pde.train_x_bc.slice
        ((cumsum s.pde.num_bcs).getD j 0)
        ((cumsum s.pde.num_bcs).getD (j + 1) 0))).1.nrows
      = s.pde.num_bcs.getD j 0 * s.num_func) ∧
    ((s.gen_inputs func_feats func_vals (s.pde.train_x_bc.slice
        ((cumsum s.pde.num_bcs).getD j 0)
        ((cumsum s.pde.num_bcs).getD (j + 1) 0))).2.1.nrows
      = s.pde.num_bcs.getD j 0 * s.num_func) ∧
    ((s.gen_inputs func_feats func_vals (s.pde.train_x_bc.slice
        ((cumsum s.pde.num_bcs).getD j 0)
        ((cumsum s.pde.num_bcs).getD (j + 1) 0))).2.2.nrows
      = s.pde.num_bcs.getD j 0 * s.num_func) := by
  have hs := slice_block_nrows s.pde.train_x_bc s.pde.num_bcs htr j hj
  refine ⟨?_, ?_, ?_⟩
  · show (func_vals.repeatRows (s.pde.train_x_bc.slice
        ((cumsum s.pde.num_bcs).getD j 0)
        ((cumsum s.pde.num_bcs).getD (j + 1) 0)).nrows).nrows = _
    rw [Mat.nrows_repeatRows, hs, hfv, Nat.mul_comm]
  · show ((s.pde.train_x_bc.slice ((cumsum s.pde.num_bcs).getD j 0)
        ((cumsum s.pde.num_bcs).getD (j + 1) 0)).tile func_feats.length).nrows = _
    rw [Mat.nrows_tile, hfe, hs, Nat.mul_comm]
  · show ((s.func_space.eval_batch func_feats
        ((s.pde.train_x_bc.slice ((cumsum s.pde.num_bcs).getD j 0)
          ((cumsum s.pde.num_bcs).getD (j + 1) 0)).selectCols
          s.func_vars)).reshapeCol).nrows = _
    rw [Mat.nrows_reshapeCol _
      ((s.pde.train_x_bc.slice ((cumsum s.pde.num_bcs).getD j 0)
        ((cumsum s.pde.num_bcs).getD (j + 1) 0)).selectCols s.func_vars).rows.length
      (fun r hr => hwf.2.2 _ _ r hr)]
    have h1 : (s.func_space.eval_batch func_feats
        ((s.pde.train_x_bc.slice ((cumsum s.pde.num_bcs).getD j 0)
          ((cumsum s.pde.num_bcs).getD (j + 1) 0)).selectCols
          s.func_vars)).nrows = func_feats.length := hwf.2.1 _ _
    have h2 : ((s.pde.train_x_bc.slice ((cumsum s.pde.num_bcs).getD j 0)
        ((cumsum s.pde.num_bcs).getD (j + 1) 0)).selectCols
        s.func_vars).rows.length
        = (s.pde.train_x_bc.slice ((cumsum s.pde.num_bcs).getD j 0)
          ((cumsum s.pde.num_bcs).getD (j + 1) 0)).nrows :=
      Mat.nrows_selectCols _ _
    rw [h1, h2, hfe, hs, Nat.mul_comm]

theorem vstackList_nrows (ms : List Mat) (counts : List Nat)
    (h : ms.map (fun m => m.rows.length) = counts) :
    (Mat.vstackList ms).nrows = counts.sum := by
  show ((ms.map Mat.rows).flatten).length = counts.sum
  rw [List.length_flatten, List.map_map]
  rw [show (List.length ∘ Mat.rows) = (fun (m : Mat) => m.rows.length) from rfl, h]

theorem vstackList_extract (ms : List Mat) (counts : List Nat)
    (h : ms.map (fun m => m.rows.length) = counts)
    (i : Nat) (hi : i < ms.length) :
    (((Mat.vstackList ms).rows.drop ((counts.take i).sum)).take (counts.getD i 0))
      = (ms.getD i default).rows := by
  have hrows : (Mat.vstackList ms).rows = (ms.map Mat.rows).flatten := rfl
  have hc : counts = (ms.map Mat.rows).map List.length := by
    rw [List.map_map, ← h]
    rfl
  have hgd : (ms.map Mat.rows).getD i [] = (ms.getD i default).rows :=
    getD_map_of_lt Mat.rows ms i hi [] default
  rw [hrows, hc]
  rw [getD_map_of_lt List.length (ms.map Mat.rows) i (by rw [List.length_map]; omega) 0 []]
  rw [← hgd]
  exact flatten_drop_take (ms.map Mat.rows) i (by rw [List.length_map]; omega)

theorem parts_rows_lengths (pf : Nat → Triple) (g : Triple → Mat) (K : Nat)
    (counts : List Nat) (hlen : counts.length = K)
    (hcnt : ∀ j, j < K → (g (pf j)).nrows = counts.getD j 0) :
    (((List.range K).map pf).map g).map (fun m => m.rows.length) = counts := by
  apply List.ext_getElem
  · simp [List.length_map, List.length_range, hlen]
  · intro j h1 h2
    simp only [List.getElem_map, List.getElem_range]
    have hjK : j < K := by
      simp only [List.length_map, List.length_range] at h1
      omega
    have h3 := hcnt j hjK
    rw [List.getD_eq_getElem counts 0 (by omega)] at h3
    exact h3

theorem parts_vstack_nrows (pf : Nat → Triple) (g : Triple → Mat) (K : Nat)
    (counts : List Nat) (hlen : counts.length = K)
    (hcnt : ∀ j, j < K → (g (pf j)).nrows = counts.getD j 0) :
    (Mat.vstackList (((List.range K).map pf).map g)).nrows = counts.sum :=
  vstackList_nrows _ _ (parts_rows_lengths pf g K counts hlen hcnt)

theorem parts_vstack_extract (pf : Nat → Triple) (g : Triple → Mat) (K : Nat)
    (counts : List Nat) (hlen : counts.length = K)
    (hcnt : ∀ j, j < K → (g (pf j)).nrows = counts.getD j 0)
    (i : Nat) (hi : i < K) :
    ((Mat.vstackList (((List.range K).map pf).map g)).rows.drop
        ((cumsum counts).getD i 0)).take (counts.getD i 0)
      = (g (pf i)).rows := by
  have hl := parts_rows_lengths pf g K counts hlen hcnt
  have he := vstackList_extract (((List.range K).map pf).map g) counts hl i
    (by simp only [List.length_map, List.length_range]; omega)
  rw [cumsum_getD counts i (by omega)]
  rw [he]
  rw [getD_map_of_lt g ((List.range K).map pf) i
    (by simp only [List.length_map, List.length_range]; omega) default default]
  rw [getD_range_map pf K i hi default]

/-! ### Claims -/

/-- C1: for every call `gen_inputs(func_feats, func_vals, points)` with `N`
functions (`func_vals` an `N × P` matrix) and `M` points (`points` an
`M × D` matrix), each returned array `v`, `x`, `vx` has exactly `N·M` rows
with column widths `P`, `D`, `1`, and for every row `k = n·M + m`
(`0 ≤ n < N`, `0 ≤ m < M`), `v[k] = func_vals[n]`, `x[k] = points[m]`, and
`vx[k]` is the Function Sampler's evaluation of function `n` at `points[m]`
restricted to the function-variable index set. -/
theorem gen_inputs_spec (self : PDEOperator) (func_feats : List ℚ)
    (func_vals points : Mat) (N M P D : Nat)
    (hfe : func_feats.length = N)
    (hfvN : func_vals.nrows = N) (hfvP : func_vals.ncols = P)
    (hfvrows : ∀ r ∈ func_vals.rows, r.length = P)
    (hpM : points.nrows = M) (hpD : points.ncols = D)
    (hprows : ∀ r ∈ points.rows, r.length = D)
    (hevN : (self.func_space.eval_batch func_feats
        (points.selectCols self.func_vars)).nrows = N)
    (hevM : ∀ r ∈ (self.func_space.eval_batch func_feats
        (points.selectCols self.func_vars)).rows, r.length = M) :
    ((self.gen_inputs func_feats func_vals points).1.nrows = N * M ∧
     (self.gen_inputs func_feats func_vals points).2.1.nrows = N * M ∧
     (self.gen_inputs func_feats func_vals points).2.2.nrows = N * M) ∧
    ((self.gen_inputs func_feats func_vals points).1.ncols = P ∧
     (self.gen_inputs func_feats func_vals points).2.1.ncols = D ∧
     (self.gen_inputs func_feats func_vals points).2.2.ncols = 1) ∧
    ((∀ r ∈ (self.gen_inputs func_feats func_vals points).1.rows, r.length = P) ∧
     (∀ r ∈ (self.gen_inputs func_feats func_vals points).2.1.rows, r.length = D) ∧
     (∀ r ∈ (self.gen_inputs func_feats func_vals points).2.2.rows, r.length = 1)) ∧
    (∀ n m, n < N → m < M →
      (self.gen_inputs func_feats func_vals points).1.rows.getD (n * M + m) []
          = func_vals.rows.getD n [] ∧
      (self.gen_inputs func_feats func_vals points).2.1.rows.getD (n * M + m) []
          = points.rows.getD m [] ∧
      (self.gen_inputs func_feats func_vals points).2.2.rows.getD (n * M + m) []
          = [((self.func_space.eval_batch func_feats
                (points.selectCols self.func_vars)).rows.getD n []).getD m 0]) := by
  have hvrows : (self.gen_inputs func_feats func_vals points).1.rows
      = (func_vals.rows.map fun r => List.replicate points.nrows r).flatten := rfl
  have hxrows : (self.gen_inputs func_feats func_vals points).2.1.rows
      = (List.replicate func_feats.length points.rows).flatten := rfl
  have hvxrows : (self.gen_inputs func_feats func_vals points).2.2.rows
      = ((self.func_space.eval_batch func_feats
          (points.selectCols self.func_vars)).rows.flatten.map fun a => [a]) := rfl
  have hfvLen : func_vals.rows.length = N := hfvN
  have hpLen : points.rows.length = M := hpM
  have hevLen : (self.func_space.eval_batch func_feats
      (points.selectCols self.func_vars)).rows.length = N := hevN
  refine ⟨⟨?_, ?_, ?_⟩, ⟨?_, ?_, ?_⟩, ⟨?_, ?_, ?_⟩, ?_⟩
  · show (func_vals.repeatRows points.nrows).nrows = N * M
    rw [Mat.nrows_repeatRows, hfvN, hpM]
  · show (points.tile func_feats.length).nrows = N * M
    rw [Mat.nrows_tile, hfe, hpM]
  · show ((self.func_space.eval_batch func_feats
        (points.selectCols self.func_vars)).reshapeCol).nrows = N * M
    rw [Mat.nrows_reshapeCol _ M hevM, hevN]
  · exact hfvP
  · exact hpD
  · rfl
  · intro r hr
    rw [hvrows] at hr
    rcases List.mem_flatten.mp hr with ⟨l, hl, hrl⟩
    rcases List.mem_map.mp hl with ⟨r0, hr0, rfl⟩
    rw [List.eq_of_mem_replicate hrl]
    exact hfvrows r0 hr0
  · intro r hr
    rw [hxrows] at hr
    rcases List.mem_flatten.mp hr with ⟨l, hl, hrl⟩
    rw [List.eq_of_mem_replicate hl] at hrl
    exact hprows r hrl
  · intro r hr
    rw [hvxrows] at hr
    rcases List.mem_map.mp hr with ⟨a, _, rfl⟩
    rfl
  · intro n m hn hm
    refine ⟨?_, ?_, ?_⟩
    · rw [hvrows,
          flatten_getD_uniform [] M _
            (by
              intro l hl
              rcases List.mem_map.mp hl with ⟨r0, _, rfl⟩
              rw [List.length_replicate, hpM])
            n m (by rw [List.length_map]; omega) hm,
          getD_map_of_lt _ _ n (by omega) [] [],
          getD_replicate_of_lt [] _ points.nrows m (by omega)]
    · rw [hxrows,
          flatten_getD_uniform [] M _
            (by
              intro l hl
              rw [List.eq_of_mem_replicate hl, ← hpM]
              rfl)
            n m (by rw [List.length_replicate]; omega) hm,
          getD_replicate_of_lt [] points.rows func_feats.length n (by omega)]
    · rw [hvxrows,
          getD_map_of_lt _ _ (n * M + m)
            (by
              rw [length_flatten_uniform M _ hevM]
              have hev := hevN
              unfold Mat.nrows at hev
              rw [hev]
              calc n * M + m < n * M + M := by omega
                _ = (n + 1) * M := by rw [Nat.succ_mul]
                _ ≤ N * M := Nat.mul_le_mul_right M (by omega))
            [] 0,
          flatten_getD_uniform 0 M _ hevM n m
            (by
              have hev := hevN
              unfold Mat.nrows at hev
              omega)
            hm]

/-- C1 witness: the shape and row-alignment facts instantiated on the
example sampler at `N = M = P = 2`, `D = 1`. -/
theorem gen_inputs_spec_witness :
    (exOp0.gen_inputs exFeats exVals exPDE.train_x_all).1.nrows = 2 * 2 ∧
    (exOp0.gen_inputs exFeats exVals exPDE.train_x_all).2.1.nrows = 2 * 2 ∧
    (exOp0.gen_inputs exFeats exVals exPDE.train_x_all).2.2.nrows = 2 * 2 ∧
    (exOp0.gen_inputs exFeats exVals exPDE.train_x_all).1.rows.getD (1 * 2 + 1) []
      = exVals.rows.getD 1 [] ∧
    (exOp0.gen_inputs exFeats exVals exPDE.train_x_all).2.1.rows.getD (1 * 2 + 1) []
      = exPDE.train_x_all.rows.getD 1 [] := by
  have h := gen_inputs_spec exOp0 exFeats exVals exPDE.train_x_all 2 2 2 1
    (by decide) (by decide) (by decide) (by decide) (by decide) (by decide)
    (by decide) (by decide) (by decide)
  have h2 := h.2.2.2 1 1 (by decide) (by decide)
  exact ⟨h.1.1, h.1.2.1, h.1.2.2, h2.1, h2.2.1⟩

/-- C7: for a problem whose condition list is empty, `bc_inputs` returns
(and stores as `train_x_bc`) three matrices with zero rows and column widths
`P` (the number of evaluation points) for `v`, the domain dimension for `x`,
and `1` for `vx`; a designed degenerate case, not an error. -/
theorem bc_inputs_empty_spec (self : PDEOperator) (func_feats : List ℚ)
    (func_vals : Mat) (hbcs : self.pde.bcs = []) :
    (self.bc_inputs func_feats func_vals).2
        = (⟨[], self.eval_pts.nrows⟩, ⟨[], self.pde.geom_dim⟩, ⟨[], 1⟩) ∧
    (self.bc_inputs func_feats func_vals).1
        = { self with train_x_bc :=
              (some (⟨[], self.eval_pts.nrows⟩, ⟨[], self.pde.geom_dim⟩, ⟨[], 1⟩)) } := by
  unfold PDEOperator.bc_inputs
  rw [hbcs]
  simp

/-- C7 witness: the condition-free example problem, with `P = 2` evaluation
points and domain dimension `1`. -/
theorem bc_inputs_empty_spec_witness :
    (exOpNoBC0.bc_inputs exFeats exVals).2
      = (⟨[], 2⟩, ⟨[], 1⟩, ⟨[], 1⟩) := by
  have h := bc_inputs_empty_spec exOpNoBC0 exFeats exVals rfl
  exact h.1

/-- C9: `train_next_batch b₁` and `train_next_batch b₂` from the same state
(same sampler randomness) produce the same result and the same stored state:
the `batch_size` argument is accepted but has no effect. -/
theorem train_next_batch_batch_size_unused (s : PDEOperator) (b1 b2 : Option Nat) :
    s.train_next_batch b1 = s.train_next_batch b2 := rfl

/-- C6: a populate call on an already-populated slot is a no-op: it returns
the cached values and leaves the whole state unchanged. -/
theorem populate_noop (s : PDEOperator) (b : Option Nat)
    (htrain : s.train_x ≠ none) (htest : s.test_x ≠ none) :
    s.train_next_batch b = (s, (s.train_x, s.train_y)) ∧
    s.test = (s, (s.test_x, s.test_y)) := by
  constructor
  · unfold PDEOperator.train_next_batch
    rw [if_neg (fun hg => htrain hg.1)]
  · unfold PDEOperator.test
    rw [if_neg (fun hg => htest hg.1)]

/-- C6 witness: the fully constructed example operator has both slots
populated, and re-populating is a no-op. -/
theorem populate_noop_witness :
    exOp.train_next_batch none = (exOp, (exOp.train_x, exOp.train_y)) ∧
    exOp.test = (exOp, (exOp.test_x, exOp.test_y)) :=
  populate_noop exOp none (by decide) (by decide)

/-- C8 counterexample: on a concrete instance, the cached slots are not
empty after construction — `__init__` itself calls `train_next_batch()` and
`test()` (lines 69-70), so `train_x` and `test_x` are already populated when
the constructor returns, contradicting the claim that after construction and
before any access the slots are still empty. -/
theorem construction_populates_counterexample :
    ¬((PDEOperator.init exPDE exFS exPts 2 none none).train_x = none ∧
      (PDEOperator.init exPDE exFS exPts 2 none none).test_x = none) := by
  decide

/-- C8 amended: the five cached slots are initialized empty (`None`) by the
field-initialization part of the constructor, and recomputation is
suppressed once populated; but the constructor itself then invokes
`train_next_batch()` and `test()`, so after construction the train and test
slots are already populated. -/
theorem lazy_slots_amended (pde : PDE) (fs : FunctionSpace) (pts : Mat)
    (nf : Nat) (fv : Option (List Nat)) (nt : Option Nat) :
    (PDEOperator.initFields pde fs pts nf fv nt).train_x_bc = none ∧
    (PDEOperator.initFields pde fs pts nf fv nt).train_x = none ∧
    (PDEOperator.initFields pde fs pts nf fv nt).train_y = none ∧
    (PDEOperator.initFields pde fs pts nf fv nt).test_x = none ∧
    (PDEOperator.initFields pde fs pts nf fv nt).test_y = none ∧
    PDEOperator.init pde fs pts nf fv nt
      = (((PDEOperator.initFields pde fs pts nf fv nt).train_next_batch none).1.test).1 ∧
    (PDEOperator.init pde fs pts nf fv nt).train_x.isSome = true ∧
    (PDEOperator.init pde fs pts nf fv nt).test_x.isSome = true := by
  have h1 : (((PDEOperator.initFields pde fs pts nf fv nt).train_next_batch
      none).1.train_x).isSome = true :=
    train_next_batch_populates _ none ⟨rfl, rfl⟩
  have hf := train_next_batch_frame (PDEOperator.initFields pde fs pts nf fv nt) none
  have hguard : runIfAllNoneGuard
      (((PDEOperator.initFields pde fs pts nf fv nt).train_next_batch none).1).test_x
      (((PDEOperator.initFields pde fs pts nf fv nt).train_next_batch none).1).test_y :=
    ⟨hf.1.trans rfl, hf.2.1.trans rfl⟩
  have h2 := test_populates _ hguard h1
  refine ⟨rfl, rfl, rfl, rfl, rfl, rfl, ?_, ?_⟩
  · show ((((PDEOperator.initFields pde fs pts nf fv
        nt).train_next_batch none).1.test).1.train_x).isSome = true
    rw [h2.2]
    exact h1
  · exact h2.1

/-- C4: a populating call to `train_next_batch` stores a `train_x` triple
whose leading rows are exactly the `train_x_bc` triple and whose trailing
rows are the interior rows over `pde.train_x_all` — present if and only if a
PDE residual is defined — and `train_y` is always `None`. -/
theorem train_next_batch_spec (s : PDEOperator) (b : Option Nat)
    (hempty : s.train_x = none ∧ s.train_y = none) :
    (s.train_next_batch b).1.train_y = none ∧
    (s.train_next_batch b).2.2 = none ∧
    (s.train_next_batch b).1.train_x = (s.train_next_batch b).2.1 ∧
    (s.train_next_batch b).1.train_x_bc
      = some ((s.bc_inputs (s.func_space.random s.num_func)
          (s.func_space.eval_batch (s.func_space.random s.num_func) s.eval_pts)).2) ∧
    (s.pde.pde = none →
      (s.train_next_batch b).1.train_x
        = some ((s.bc_inputs (s.func_space.random s.num_func)
            (s.func_space.eval_batch (s.func_space.random s.num_func) s.eval_pts)).2)) ∧
    (s.pde.pde ≠ none →
      ∃ t : Triple, (s.train_next_batch b).1.train_x = some t ∧
        t.1.rows
          = (s.bc_inputs (s.func_space.random s.num_func)
              (s.func_space.eval_batch (s.func_space.random s.num_func) s.eval_pts)).2.1.rows
            ++ (s.gen_inputs (s.func_space.random s.num_func)
                (s.func_space.eval_batch (s.func_space.random s.num_func) s.eval_pts)
                s.pde.train_x_all).1.rows ∧
        t.2.1.rows
          = (s.bc_inputs (s.func_space.random s.num_func)
              (s.func_space.eval_batch (s.func_space.random s.num_func) s.eval_pts)).2.2.1.rows
            ++ (s.gen_inputs (s.func_space.random s.num_func)
                (s.func_space.eval_batch (s.func_space.random s.num_func) s.eval_pts)
                s.pde.train_x_all).2.1.rows ∧
        t.2.2.rows
          = (s.bc_inputs (s.func_space.random s.num_func)
              (s.func_space.eval_batch (s.func_space.random s.num_func) s.eval_pts)).2.2.2.rows
            ++ (s.gen_inputs (s.func_space.random s.num_func)
                (s.func_space.eval_batch (s.func_space.random s.num_func) s.eval_pts)
                s.pde.train_x_all).2.2.rows) := by
  rw [train_next_batch_run s b hempty]
  cases hp : s.pde.pde with
  | none => exact ⟨rfl, rfl, rfl, rfl, fun _ => rfl, fun hne => absurd rfl hne⟩
  | some res =>
    exact ⟨rfl, rfl, rfl, rfl, fun h0 => Option.noConfusion h0,
      fun _ => ⟨_, rfl, rfl, rfl, rfl⟩⟩

/-- C4 witness: a populating call on the field-initialized example
operator. -/
theorem train_next_batch_spec_witness :
    (exOp0.train_next_batch none).1.train_y = none ∧
    (exOp0.train_next_batch none).2.2 = none ∧
    (exOp0.train_next_batch none).1.train_x = (exOp0.train_next_batch none).2.1 :=
  let h := train_next_batch_spec exOp0 none ⟨rfl, rfl⟩
  ⟨h.1, h.2.1, h.2.2.1⟩

/-- C5: a populating call to `test()`: with no `num_test` configured, the
test data aliases `train_x` with no new sampling (only the test slots
change); otherwise a fresh `num_test` function batch is drawn, the leading
rows of `test_x` are exactly the stored `train_x_bc` triple unmodified, and
when a residual is defined the trailing rows are assembled from the fresh
functions over the interior testing points `pde.test_x[sum(pde.num_bcs):]`;
`test_y` is always `None`. -/
theorem test_spec (s : PDEOperator)
    (hempty : s.test_x = none ∧ s.test_y = none) :
    (s.num_test = none →
       s.test = ({ s with test_x := s.train_x, test_y := none }, (s.train_x, none))) ∧
    (∀ nt : Nat, s.num_test = some nt →
       (s.test).1.test_y = none ∧
       (s.test).2.2 = none ∧
       (s.test).1.train_x_bc = s.train_x_bc ∧
       (s.test).1.train_x = s.train_x ∧
       (∀ tbc : Triple, s.train_x_bc = some tbc →
         (s.pde.pde = none → (s.test).1.test_x = some tbc) ∧
         (s.pde.pde ≠ none →
           ∃ t : Triple, (s.test).1.test_x = some t ∧
             t.1.rows = tbc.1.rows
               ++ (s.gen_inputs (s.func_space.random nt)
                   (s.func_space.eval_batch (s.func_space.random nt) s.eval_pts)
                   (s.pde.test_x.dropRows s.pde.num_bcs.sum)).1.rows ∧
             t.2.1.rows = tbc.2.1.rows
               ++ (s.gen_inputs (s.func_space.random nt)
                   (s.func_space.eval_batch (s.func_space.random nt) s.eval_pts)
                   (s.pde.test_x.dropRows s.pde.num_bcs.sum)).2.1.rows ∧
             t.2.2.rows = tbc.2.2.rows
               ++ (s.gen_inputs (s.func_space.random nt)
                   (s.func_space.eval_batch (s.func_space.random nt) s.eval_pts)
                   (s.pde.test_x.dropRows s.pde.num_bcs.sum)).2.2.rows))) := by
  constructor
  · intro hnt
    exact test_run_none s hempty hnt
  · intro nt hnt
    rw [test_run_some s nt hempty hnt]
    refine ⟨rfl, rfl, rfl, rfl, ?_⟩
    intro tbc htbc
    rw [htbc]
    cases hp : s.pde.pde with
    | none => exact ⟨fun _ => rfl, fun hne => absurd rfl hne⟩
    | some res =>
      exact ⟨fun h0 => Option.noConfusion h0, fun _ => ⟨_, rfl, rfl, rfl, rfl⟩⟩

/-- C5 witness: the example operator with `num_test = 3`, right after a
populating `train_next_batch` call. -/
theorem test_spec_witness :
    ((exOpT0.train_next_batch none).1.test).1.test_y = none ∧
    ((exOpT0.train_next_batch none).1.test).1.train_x_bc
      = (exOpT0.train_next_batch none).1.train_x_bc :=
  let s1 := (exOpT0.train_next_batch none).1
  let h := (test_spec s1 ⟨rfl, rfl⟩).2 3 rfl
  ⟨h.1, h.2.2.1⟩

/-- C3: with `C` conditions and a residual of `E` components (`E = 0` when
no residual is defined), `losses` returns exactly `E + C` scalars, PDE
losses first, then one loss per condition in declared order; each PDE loss
is `loss_fn` against zero of the residual rows at or beyond the total scaled
BC/IC row count, and condition `i`'s loss is `loss_fn` against zero of its
error over the row range `[cumulative i, cumulative (i+1))`. -/
theorem losses_spec (s : PDEOperator) (targets : Option Mat) (outputs : Mat)
    (loss : List ℚ → List ℚ → ℚ) (model : Model)
    (hlen : s.num_bcs.length = s.pde.bcs.length) :
    (s.losses targets outputs loss model).length
      = (match s.pde.pde with
         | none => 0
         | some res => (res model.inputs1 outputs model.inputs2).length)
        + s.pde.bcs.length ∧
    (∀ res, s.pde.pde = some res →
      ∀ j, j < (res model.inputs1 outputs model.inputs2).length →
        (s.losses targets outputs loss model).getD j 0
          = loss
              (List.replicate (((res model.inputs1 outputs
                  model.inputs2).getD j []).drop s.num_bcs.sum).length 0)
              (((res model.inputs1 outputs model.inputs2).getD j []).drop
                s.num_bcs.sum)) ∧
    (s.pde.pde = none →
      ∀ i, i < s.pde.bcs.length →
        (s.losses targets outputs loss model).getD i 0
          = loss
              (List.replicate ((s.pde.bcs.getD i default).error
                (s.train_x.getD default).2.1 model.inputs1 outputs
                ((s.num_bcs.take i).sum) ((s.num_bcs.take (i + 1)).sum)
                (s.train_x.getD default).2.2).length 0)
              ((s.pde.bcs.getD i default).error (s.train_x.getD default).2.1
                model.inputs1 outputs ((s.num_bcs.take i).sum)
                ((s.num_bcs.take (i + 1)).sum) (s.train_x.getD default).2.2)) ∧
    (∀ res, s.pde.pde = some res →
      ∀ i, i < s.pde.bcs.length →
        (s.losses targets outputs loss model).getD
            ((res model.inputs1 outputs model.inputs2).length + i) 0
          = loss
              (List.replicate ((s.pde.bcs.getD i default).error
                (s.train_x.getD default).2.1 model.inputs1 outputs
                ((s.num_bcs.take i).sum) ((s.num_bcs.take (i + 1)).sum)
                (s.train_x.getD default).2.2).length 0)
              ((s.pde.bcs.getD i default).error (s.train_x.getD default).2.1
                model.inputs1 outputs ((s.num_bcs.take i).sum)
                ((s.num_bcs.take (i + 1)).sum) (s.train_x.getD default).2.2)) := by
  refine ⟨?_, ?_, ?_, ?_⟩
  · rw [losses_eq]
    cases hp : s.pde.pde with
    | none => simp
    | some res => simp
  · intro res hres j hj
    rw [losses_eq, hres]
    simp only []
    rw [List.getD_append _ _ _ j (by rw [List.length_map]; omega)]
    rw [getD_map_of_lt _ _ j (by omega) 0 []]
  · intro hnone i hi
    have h := losses_getD_bc s targets outputs loss model i hi
    rw [hnone] at h
    simp only [Nat.zero_add] at h
    rw [cumsum_getD _ i (by omega), cumsum_getD _ (i + 1) (by omega)] at h
    exact h
  · intro res hres i hi
    have h := losses_getD_bc s targets outputs loss model i hi
    rw [hres] at h
    simp only [] at h
    rw [cumsum_getD _ i (by omega), cumsum_getD _ (i + 1) (by omega)] at h
    exact h

/-- C3 witness: the constructed example operator has one residual component
and two conditions, so `losses` returns `1 + 2` scalars. -/
theorem losses_spec_witness :
    (exOp.losses none exOut exLossFn exModel).length
      = (match exOp.pde.pde with
         | none => 0
         | some res => (res exModel.inputs1 exOut exModel.inputs2).length)
        + exOp.pde.bcs.length :=
  (losses_spec exOp none exOut exLossFn exModel (by decide)).1

/-- C10: condition errors inside `losses` are always computed from the
stored training tensors — `train_x[1]` as the coordinate argument and
`train_x[2]` as the auxiliary argument — and `losses` never reads
`test_x`/`test_y`: its result is invariant under replacing them. -/
theorem losses_uses_train_x (s : PDEOperator) (targets : Option Mat)
    (outputs : Mat) (loss : List ℚ → List ℚ → ℚ) (model : Model) :
    (∀ tx ty : Option Triple,
      ({ s with test_x := tx, test_y := ty } : PDEOperator).losses targets
          outputs loss model
        = s.losses targets outputs loss model) ∧
    (∀ i, i < s.pde.bcs.length →
      (s.losses targets outputs loss model).getD
          ((match s.pde.pde with
            | none => 0
            | some res => (res model.inputs1 outputs model.inputs2).length) + i) 0
        = loss
            (List.replicate ((s.pde.bcs.getD i default).error
              (s.train_x.getD default).2.1 model.inputs1 outputs
              ((cumsum s.num_bcs).getD i 0) ((cumsum s.num_bcs).getD (i + 1) 0)
              (s.train_x.getD default).2.2).length 0)
            ((s.pde.bcs.getD i default).error (s.train_x.getD default).2.1
              model.inputs1 outputs ((cumsum s.num_bcs).getD i 0)
              ((cumsum s.num_bcs).getD (i + 1) 0) (s.train_x.getD default).2.2)) :=
  ⟨fun _ _ => rfl, fun i hi => losses_getD_bc s targets outputs loss model i hi⟩

/-- C10 witness: replacing the test slots of the constructed example
operator leaves `losses` unchanged. -/
theorem losses_uses_train_x_witness :
    ({ exOp with test_x := none, test_y := none } : PDEOperator).losses none
        exOut exLossFn exModel
      = exOp.losses none exOut exLossFn exModel :=
  (losses_uses_train_x exOp none exOut exLossFn exModel).1 none none

/-- C2: with at least one condition, the stored `train_x_bc` triple is
partitioned by the scaled cumulative condition counts: scaled count `i` is
the condition's raw point count times `num_func`, the total row count of
each of `v`, `x`, `vx` is the sum of the scaled counts, and the row range
`[scaled_cumulative i, scaled_cumulative (i+1))` holds exactly the rows
generated from condition `i`'s point slice. -/
theorem bc_inputs_partition (s : PDEOperator) (func_feats : List ℚ) (func_vals : Mat)
    (hbcs : s.pde.bcs ≠ [])
    (hfe : func_feats.length = s.num_func)
    (hfv : func_vals.nrows = s.num_func)
    (hwf : s.func_space.WellFormed)
    (htr : s.pde.train_x_bc.nrows = s.pde.num_bcs.sum) :
    ((s.bc_inputs func_feats func_vals).1.train_x_bc
        = some ((s.bc_inputs func_feats func_vals).2)) ∧
    ((s.bc_inputs func_feats func_vals).2.1.nrows
        = (s.pde.num_bcs.map (fun n => n * s.num_func)).sum ∧
     (s.bc_inputs func_feats func_vals).2.2.1.nrows
        = (s.pde.num_bcs.map (fun n => n * s.num_func)).sum ∧
     (s.bc_inputs func_feats func_vals).2.2.2.nrows
        = (s.pde.num_bcs.map (fun n => n * s.num_func)).sum) ∧
    (∀ i, i < s.pde.num_bcs.length →
      ((cumsum (s.pde.num_bcs.map (fun n => n * s.num_func))).getD (i + 1) 0
          - (cumsum (s.pde.num_bcs.map (fun n => n * s.num_func))).getD i 0
        = s.pde.num_bcs.getD i 0 * s.num_func) ∧
      (((s.bc_inputs func_feats func_vals).2.1.rows.drop
          ((cumsum (s.pde.num_bcs.map (fun n => n * s.num_func))).getD i 0)).take
          (s.pde.num_bcs.getD i 0 * s.num_func)
        = (s.gen_inputs func_feats func_vals
            (s.pde.train_x_bc.slice ((cumsum s.pde.num_bcs).getD i 0)
              ((cumsum s.pde.num_bcs).getD (i + 1) 0))).1.rows) ∧
      (((s.bc_inputs func_feats func_vals).2.2.1.rows.drop
          ((cumsum (s.pde.num_bcs.map (fun n => n * s.num_func))).getD i 0)).take
          (s.pde.num_bcs.getD i 0 * s.num_func)
        = (s.gen_inputs func_feats func_vals
            (s.pde.train_x_bc.slice ((cumsum s.pde.num_bcs).getD i 0)
              ((cumsum s.pde.num_bcs).getD (i + 1) 0))).2.1.rows) ∧
      (((s.bc_inputs func_feats func_vals).2.2.2.rows.drop
          ((cumsum (s.pde.num_bcs.map (fun n => n * s.num_func))).getD i 0)).take
          (s.pde.num_bcs.getD i 0 * s.num_func)
        = (s.gen_inputs func_feats func_vals
            (s.pde.train_x_bc.slice ((cumsum s.pde.num_bcs).getD i 0)
              ((cumsum s.pde.num_bcs).getD (i + 1) 0))).2.2.rows)) := by
  have hie : s.pde.bcs.isEmpty = false := by
    cases hb : s.pde.bcs with
    | nil => exact absurd hb hbcs
    | cons a l => rfl
  have hbc2 : (s.bc_inputs func_feats func_vals).2
      = (Mat.vstackList (((List.range s.pde.num_bcs.length).map (fun i =>
            s.gen_inputs func_feats func_vals
              (s.pde.train_x_bc.slice ((cumsum s.pde.num_bcs).getD i 0)
                ((cumsum s.pde.num_bcs).getD (i + 1) 0)))).map (fun p => p.1)),
         Mat.vstackList (((List.range s.pde.num_bcs.length).map (fun i =>
            s.gen_inputs func_feats func_vals
              (s.pde.train_x_bc.slice ((cumsum s.pde.num_bcs).getD i 0)
                ((cumsum s.pde.num_bcs).getD (i + 1) 0)))).map (fun p => p.2.1)),
         Mat.vstackList (((List.range s.pde.num_bcs.length).map (fun i =>
            s.gen_inputs func_feats func_vals
              (s.pde.train_x_bc.slice ((cumsum s.pde.num_bcs).getD i 0)
                ((cumsum s.pde.num_bcs).getD (i + 1) 0)))).map (fun p => p.2.2))) := by
    unfold PDEOperator.bc_inputs
    rw [hie]
    rfl
  have hcnt1 : ∀ j, j < s.pde.num_bcs.length →
      ((fun (p : Triple) => p.1) ((fun i =>
        s.gen_inputs func_feats func_vals
          (s.pde.train_x_bc.slice ((cumsum s.pde.num_bcs).getD i 0)
            ((cumsum s.pde.num_bcs).getD (i + 1) 0))) j)).nrows
      = (s.pde.num_bcs.map (fun n => n * s.num_func)).getD j 0 := by
    intro j hj
    rw [getD_map_of_lt _ _ j hj 0 0]
    exact (bc_part_counts s func_feats func_vals hfe hfv hwf htr j hj).1
  have hcnt2 : ∀ j, j < s.pde.num_bcs.length →
      ((fun (p : Triple) => p.2.1) ((fun i =>
        s.gen_inputs func_feats func_vals
          (s.pde.train_x_bc.slice ((cumsum s.pde.num_bcs).getD i 0)
            ((cumsum s.pde.num_bcs).getD (i + 1) 0))) j)).nrows
      = (s.pde.num_bcs.map (fun n => n * s.num_func)).getD j 0 := by
    intro j hj
    rw [getD_map_of_lt _ _ j hj 0 0]
    exact (bc_part_counts s func_feats func_vals hfe hfv hwf htr j hj).2.1
  have hcnt3 : ∀ j, j < s.pde.num_bcs.length →
      ((fun (p : Triple) => p.2.2) ((fun i =>
        s.gen_inputs func_feats func_vals
          (s.pde.train_x_bc.slice ((cumsum s.pde.num_bcs).getD i 0)
            ((cumsum s.pde.num_bcs).getD (i + 1) 0))) j)).nrows
      = (s.pde.num_bcs.map (fun n => n * s.num_func)).getD j 0 := by
    intro j hj
    rw [getD_map_of_lt _ _ j hj 0 0]
    exact (bc_part_counts s func_feats func_vals hfe hfv hwf htr j hj).2.2
  have hlenc : (s.pde.num_bcs.map (fun n => n * s.num_func)).length
      = s.pde.num_bcs.length := List.length_map _ _
  refine ⟨?_, ⟨?_, ?_, ?_⟩, ?_⟩
  · rw [bc_inputs_frame]
  · rw [hbc2]
    exact parts_vstack_nrows _ _ _ _ hlenc hcnt1
  · rw [hbc2]
    exact parts_vstack_nrows _ _ _ _ hlenc hcnt2
  · rw [hbc2]
    exact parts_vstack_nrows _ _ _ _ hlenc hcnt3
  · intro i hi
    have hsg : (s.pde.num_bcs.map (fun n => n * s.num_func)).getD i 0
        = s.pde.num_bcs.getD i 0 * s.num_func := getD_map_of_lt _ _ i hi 0 0
    refine ⟨?_, ?_, ?_, ?_⟩
    · rw [cumsum_getD _ (i + 1) (by omega),
          cumsum_getD _ i (by omega)]
      rw [List.sum_take_succ _ i (by omega)]
      rw [List.getElem_map]
      rw [← List.getD_eq_getElem s.pde.num_bcs 0 hi]
      omega
    · rw [hbc2, ← hsg]
      exact parts_vstack_extract _ _ _ _ hlenc hcnt1 i hi
    · rw [hbc2, ← hsg]
      exact parts_vstack_extract _ _ _ _ hlenc hcnt2 i hi
    · rw [hbc2, ← hsg]
      exact parts_vstack_extract _ _ _ _ hlenc hcnt3 i hi

/-- C2 witness: the example problem with raw counts `[2, 1]` and
`num_func = 2`; the total is `4 + 2` rows, and the rows of condition `1`
occupy range `[4, 6)`. -/
theorem bc_inputs_partition_witness :
    (exOp0.bc_inputs exFeats exVals).2.1.nrows
      = (exOp0.pde.num_bcs.map (fun n => n * exOp0.num_func)).sum ∧
    ((exOp0.bc_inputs exFeats exVals).2.1.rows.drop
        ((cumsum (exOp0.pde.num_bcs.map (fun n => n * exOp0.num_func))).getD 1 0)).take
        (exOp0.pde.num_bcs.getD 1 0 * exOp0.num_func)
      = (exOp0.gen_inputs exFeats exVals
          (exOp0.pde.train_x_bc.slice ((cumsum exOp0.pde.num_bcs).getD 1 0)
            ((cumsum exOp0.pde.num_bcs).getD 2 0))).1.rows := by
  have h := bc_inputs_partition exOp0 exFeats exVals
    (by intro hh; exact List.noConfusion hh) (by decide) (by decide)
    ⟨fun n => by
       have h0 : (exOp0.func_space.random n).length
           = (List.map (fun (i : ℕ) => (i : ℚ)) (List.range n)).length := rfl
       rw [h0, List.length_map, List.length_range],
     fun feats pts => by
       have h0 : (exOp0.func_space.eval_batch feats pts).rows.length
           = (List.map (fun f => List.map (fun r => f + r.sum) pts.rows) feats).length :=
         rfl
       rw [h0, List.length_map],
     fun feats pts r hr => by
       have hr2 : r ∈ List.map (fun f => List.map (fun r0 => f + r0.sum) pts.rows) feats :=
         hr
       rcases List.mem_map.mp hr2 with ⟨f, hf, rfl⟩
       rw [List.length_map]⟩
    (by decide)
  exact ⟨h.2.1.1, (h.2.2 1 (by decide)).2.1⟩

end PDEOp
